import Mathlib

/-!
Shallow embedding of `pyodm` (src/pyodm/odm.py): optional-dependency
descriptors, the lazy `load()` state machine, the decorator/registry layer
and `report()`.  Python dicts are modelled as association lists, the
process-wide `sys.modules` cache as an association list threaded through
the stateful operations, and raised exceptions as `Except` errors.
-/

deriving instance DecidableEq for Except

namespace Pyodm

/-! ## Versions and specifier sets

Models the external `packaging` library boundary (spec section 6:
"Version-range predicate evaluator") restricted to plain release versions
(dotted numerals, no epochs / pre-releases / local segments): a version is
its list of release segments, shorter releases compare as if zero-padded,
and a specifier set is a comma-separated list of operator-version clauses
that must all hold. -/

/-- `String.splitOn` for a one-character separator, as structural recursion
on the character list (so that it evaluates inside the kernel). -/
def splitOnChar (sep : Char) : List Char → List (List Char)
  | [] => [[]]
  | c :: rest =>
    if c == sep then [] :: splitOnChar sep rest
    else
      match splitOnChar sep rest with
      | [] => [[c]]
      | w :: ws => (c :: w) :: ws

/-- `str.splitOn` for a one-character separator. -/
def strSplitOn (s : String) (sep : Char) : List String :=
  (splitOnChar sep s.data).map String.mk

/-- `String.trim` on the character list. -/
def trimChars (l : List Char) : List Char :=
  ((l.dropWhile Char.isWhitespace).reverse.dropWhile Char.isWhitespace).reverse

/-- Decimal numeral to `Nat`. -/
def digitsToNat (l : List Char) : Nat :=
  l.foldl (fun n c => 10 * n + (c.toNat - Char.toNat '0')) 0

/-- Parse one dotted numeric version, e.g. `"1.20.3"` to `[1, 20, 3]`.
Returns `none` on anything that is not dotted decimal numerals. -/
def parseVersionChars (l : List Char) : Option (List Nat) :=
  let parts := splitOnChar '.' l
  if parts.all (fun p => !p.isEmpty && p.all Char.isDigit) then
    some (parts.map digitsToNat)
  else none

/-- Parse one dotted numeric version string. -/
def parseVersion (s : String) : Option (List Nat) :=
  parseVersionChars s.data

/-- Compare release lists the way `packaging` compares releases: the shorter
list is padded with zeros on the right. -/
def verCmp : List Nat → List Nat → Ordering
  | [], bs => if bs.any (fun b => 0 < b) then .lt else .eq
  | a :: as2, [] => if 0 < a then .gt else verCmp as2 []
  | a :: as2, b :: bs =>
    if a < b then .lt else if b < a then .gt else verCmp as2 bs

/-- One comparison clause of a specifier set. -/
inductive SpecOp where
  | gt | lt | ge | le | eqOp | ne
  deriving DecidableEq, Repr

structure SpecClause where
  op : SpecOp
  ver : List Nat
  raw : String
  deriving DecidableEq, Repr

/-- Evaluate one clause against an installed version. -/
def SpecClause.eval (c : SpecClause) (v : List Nat) : Bool :=
  match c.op with
  | .gt => verCmp v c.ver == .gt
  | .lt => verCmp v c.ver == .lt
  | .ge => verCmp v c.ver != .lt
  | .le => verCmp v c.ver != .gt
  | .eqOp => verCmp v c.ver == .eq
  | .ne => verCmp v c.ver != .eq

/-- `leadsWith pat l`: `pat` is an initial segment of `l`. -/
def leadsWith : List Char → List Char → Bool
  | [], _ => true
  | _ :: _, [] => false
  | a :: as2, b :: bs => a == b && leadsWith as2 bs

/-- Parse one clause such as `">=1.20"` (operator prefix then version). -/
def parseSpecClause (s : String) : Option SpecClause :=
  let t := trimChars s.data
  let mk : SpecOp → List Char → Option SpecClause := fun op rest =>
    (parseVersionChars (trimChars rest)).map fun v => ⟨op, v, String.mk t⟩
  if leadsWith ['>', '='] t then mk .ge (t.drop 2)
  else if leadsWith ['<', '='] t then mk .le (t.drop 2)
  else if leadsWith ['=', '='] t then mk .eqOp (t.drop 2)
  else if leadsWith ['!', '='] t then mk .ne (t.drop 2)
  else if leadsWith ['>'] t then mk .gt (t.drop 1)
  else if leadsWith ['<'] t then mk .lt (t.drop 1)
  else none

/-- Parse a whole specifier-set string: comma-separated clauses; the empty
string is the empty (all-accepting) set; `none` models
`packaging.InvalidSpecifier`. -/
def parseSpecifierSet (s : String) : Option (List SpecClause) :=
  if (trimChars s.data).isEmpty then some []
  else
    ((splitOnChar ',' s.data).map String.mk).foldr
      (fun part acc =>
        match acc, parseSpecClause part with
        | some cs, some c => some (c :: cs)
        | _, _ => none)
      (some [])

/-- `installed_version in specifier_set` for a parsed set: every clause
holds of the (parsed) version string. Unparseable versions are rejected. -/
def specSetContains (cs : List SpecClause) (versionStr : String) : Bool :=
  match parseVersion versionStr with
  | some v => cs.all (fun c => c.eval v)
  | none => false

/-! ## Substring containment

Executable "does string `s` mention `pat`" used to state properties of
error messages. -/

/-- `occursIn pat l`: `pat` occurs contiguously somewhere in `l`. -/
def occursIn (pat : List Char) : List Char → Bool
  | [] => leadsWith pat []
  | c :: rest => leadsWith pat (c :: rest) || occursIn pat rest

/-- `strContains s pat`: the string `s` mentions `pat` as a substring. -/
def strContains (s pat : String) : Bool :=
  occursIn pat.data s.data

/-! ## MetaSource (odm.py lines 40-64)

`MetaSource` owns the parsed installed-distribution metadata of the source
package: its `Requires-Dist` requirement list and its `Provides-Extra`
names.  A requirement's environment marker is modelled by the only marker
shape relevant here, `extra == "<name>"`, evaluated against the
`{"extra": extra}` environment that `get_specifier` builds. -/

/-- Environment marker of a requirement. `extraIs e` models the marker
`extra == "e"`. -/
inductive Marker where
  | extraIs (e : String)
  deriving DecidableEq, Repr

/-- `marker.evaluate(environment=env)` where `env` is `{"extra": extra}`
when an extra was passed and the default environment (no extra) otherwise. -/
def Marker.evaluate (m : Marker) (env : Option String) : Bool :=
  match m with
  | .extraIs e =>
    match env with
    | some x => x == e
    | none => false

/-- One parsed `Requires-Dist` entry: `packaging.requirements.Requirement`
restricted to name, specifier text and optional marker. -/
structure Requirement where
  name : String
  specifier : String
  marker : Option Marker
  deriving DecidableEq, Repr

structure MetaSource where
  source : String
  requires : List Requirement
  extras : List String
  deriving DecidableEq, Repr

/-- Errors raised by `MetaSource.get_specifier`. -/
inductive MetaErr where
  | valueError (msg : String)
  | importError (msg : String)
  deriving DecidableEq, Repr

/-- The loop condition of `get_specifier`: the requirement's name equals
the target and its marker (if any) evaluates true. -/
def reqMatches (target : String) (env : Option String) (r : Requirement) : Bool :=
  r.name == target && (r.marker.elim true (fun m => m.evaluate env))

/-- First requirement in the list satisfying `reqMatches` — the loop of
`get_specifier`. -/
def findRequirement (target : String) (env : Option String) :
    List Requirement → Option Requirement
  | [] => none
  | r :: rs =>
    if reqMatches target env r then some r
    else findRequirement target env rs

/-- `MetaSource.get_specifier` (odm.py lines 54-64): reject an extra not in
`Provides-Extra`; otherwise return the specifier of the first name-matching,
marker-satisfied requirement; otherwise raise ImportError. -/
def MetaSource.get_specifier (ms : MetaSource) (target : String)
    (extra : Option String) : Except MetaErr String :=
  let env : Option String := extra
  match extra with
  | some e =>
    if e ∉ ms.extras then
      .error (.valueError (e ++ " is not a valid extra for " ++ ms.source ++ "\n"))
    else
      match findRequirement target env ms.requires with
      | some r => .ok r.specifier
      | none =>
        .error (.importError
          (target ++ " is not listed as a dependency of " ++ ms.source ++ "\n"))
  | none =>
    match findRequirement target env ms.requires with
    | some r => .ok r.specifier
    | none =>
      .error (.importError
        (target ++ " is not listed as a dependency of " ++ ms.source ++ "\n"))

/-! ## ModuleSpec and load() (odm.py lines 67-164)

`ModuleSpec` stores one dependency descriptor; `load()` is the memoized
state machine `unresolved -> resolved-ok | resolved-error`.  Loaded module
handles are opaque; we use the module's dotted name as its handle.
The import machinery (`importlib.metadata.version`, `find_spec`) is an
environment record of pure lookup functions; `sys.modules` is an
association list threaded in and out of `load`. -/

/-- `module_name.startswith(".")`: the first character is a dot.
(`String.startsWith` itself does not reduce inside kernel evaluation, so
the one-character case is spelled out.) -/
def startsWithDot (s : String) : Bool :=
  match s.data with
  | [] => false
  | c :: _ => c == '.'

/-- Opaque handle of a loaded module object. -/
abbrev Module := String

/-- The process-wide `sys.modules` cache. -/
abbrev SysModules := List (String × Module)

/-- Result of `importlib.util.find_spec`: `none` for no spec at all,
otherwise whether the found spec has a loader. -/
structure FoundSpec where
  hasLoader : Bool
  deriving DecidableEq, Repr

/-- The import/metadata environment (spec section 6 boundary collaborators):
`versionOf pkg` is `importlib.metadata.version(pkg)` (`none` models
`PackageNotFoundError`), `findSpec name` is `importlib.util.find_spec`. -/
structure Env where
  versionOf : String → Option String
  findSpec : String → Option FoundSpec

/-- The tuple `(module, installed_version, error_msg)` returned by
`ModuleSpec.load`. -/
structure LoadResult where
  module : Option Module
  installed_version : Option String
  error_msg : Option String
  deriving DecidableEq, Repr

/-- The `ModuleSpec` dataclass.  `load_cache` is `_load_cache`. -/
structure ModuleSpec where
  module_name : String
  from_meta : Bool := false
  specifiers : Option String := none
  «alias» : Option String := none
  extra : Option String := none
  distribution_name : Option String := none
  load_cache : Option LoadResult := none
  deriving DecidableEq, Repr

/-- Dataclass construction followed by `__post_init__` (odm.py lines
84-89): default the alias to the module name, and default the specifiers
to `">0.0.0,<9999.9999.9999"` when absent and not meta-derived. -/
def mkModuleSpec (module_name : String) (from_meta : Bool := false)
    (specifiers : Option String := none) («alias» : Option String := none)
    (extra : Option String := none) (distribution_name : Option String := none) :
    ModuleSpec :=
  let «alias» := match «alias» with
    | none => some module_name
    | some a => some a
  let specifiers :=
    if specifiers = none && !from_meta then some ">0.0.0,<9999.9999.9999"
    else specifiers
  { module_name, from_meta, specifiers, «alias», extra, distribution_name,
    load_cache := none }

/-- Python `str(x)` of an optional string, for error-message formatting. -/
def optStr : Option String → String
  | none => "None"
  | some s => s

/-- Python `sep.join(parts)`, by structural recursion. -/
def joinWith (sep : String) : List String → String
  | [] => ""
  | [x] => x
  | x :: y :: rest => x ++ sep ++ joinWith sep (y :: rest)

/-- Lexicographic string order by character code, for `str(SpecifierSet)`
(Lean's `String` order does not evaluate inside the kernel). -/
def charListLe : List Char → List Char → Bool
  | [], _ => true
  | _ :: _, [] => false
  | a :: as2, b :: bs =>
    if a.toNat < b.toNat then true
    else if b.toNat < a.toNat then false
    else charListLe as2 bs

/-- Stable insertion into a sorted list. -/
def insertSorted (le : String → String → Bool) (x : String) :
    List String → List String
  | [] => [x]
  | y :: ys => if le x y then x :: y :: ys else y :: insertSorted le x ys

/-- Stable sort by insertion, modelling Python `sorted`. -/
def sortStrings (l : List String) : List String :=
  l.foldr (insertSorted (fun a b => charListLe a.data b.data)) []

/-- `str(SpecifierSet)`: the clause texts, sorted, joined with commas. -/
def specSetStr (cs : List SpecClause) : String :=
  joinWith "," (sortStrings (cs.map SpecClause.raw))

/-- The installable package name used by `load()` (odm.py lines 111-118):
`distribution_name` if given, else the first dot-segment of the module
name. -/
def ModuleSpec.package_name (s : ModuleSpec) : String :=
  match s.distribution_name with
  | some d => d
  | none =>
    if s.module_name.data.contains '.' then
      ((strSplitOn s.module_name '.').headD s.module_name)
    else s.module_name

/-- `ModuleSpec.load` (odm.py lines 91-164).  Returns the result tuple, the
descriptor with its updated memo cache, and the updated `sys.modules`;
`Except.error` models the raised `ValueError` for relative module names
(which happens after the cache check but before any caching). -/
def ModuleSpec.load (env : Env) (sys : SysModules) (s : ModuleSpec) :
    Except String (LoadResult × ModuleSpec × SysModules) :=
  match s.load_cache with
  | some r => .ok (r, s, sys)
  | none =>
    if startsWithDot s.module_name then
      .error ("Relative imports are not supported, " ++
        "module_name must be an absolute path")
    else
      let package_name := s.package_name
      match env.versionOf package_name with
      | none =>
        let r : LoadResult := ⟨none, none, some (package_name ++ " is not installed\n")⟩
        .ok (r, { s with load_cache := some r }, sys)
      | some installed_version =>
        match parseSpecifierSet (s.specifiers.getD "") with
        | none =>
          let r : LoadResult := ⟨none, some installed_version,
            some (optStr s.specifiers ++ " is not a valid specifier")⟩
          .ok (r, { s with load_cache := some r }, sys)
        | some specifier_set =>
          if !specSetContains specifier_set installed_version then
            let r : LoadResult := ⟨none, some installed_version,
              some (package_name ++ " version " ++ installed_version ++
                " does not meet requirement " ++ specSetStr specifier_set ++ "\n")⟩
            .ok (r, { s with load_cache := some r }, sys)
          else
            match List.lookup s.module_name sys with
            | some module =>
              let r : LoadResult := ⟨some module, some installed_version, none⟩
              .ok (r, { s with load_cache := some r }, sys)
            | none =>
              match env.findSpec s.module_name with
              | none =>
                let r : LoadResult := ⟨none, some installed_version,
                  some ("Cannot find module spec for " ++ s.module_name ++ "\n")⟩
                .ok (r, { s with load_cache := some r }, sys)
              | some spec =>
                if !spec.hasLoader then
                  let r : LoadResult := ⟨none, some installed_version,
                    some ("Module " ++ s.module_name ++ " has no loader\n")⟩
                  .ok (r, { s with load_cache := some r }, sys)
                else
                  let module : Module := s.module_name
                  let r : LoadResult := ⟨some module, some installed_version, none⟩
                  .ok (r, { s with load_cache := some r },
                    (s.module_name, module) :: sys)

/-- `n`-fold repetition of `load` from a given state: `loadN 0` is the
first call, `loadN (n+1)` performs one call and continues from the
resulting descriptor/cache state. -/
def loadN (env : Env) : Nat → SysModules → ModuleSpec →
    Except String (LoadResult × ModuleSpec × SysModules)
  | 0, sys, s => ModuleSpec.load env sys s
  | n + 1, sys, s =>
    match ModuleSpec.load env sys s with
    | .ok (_, s', sys') => loadN env n sys' s'
    | .error e => .error e

/-! ## Error formatting (odm.py lines 171-208) -/

/-- The `pkg_name` of `_format_dependency_error` (odm.py line 192):
`spec.distribution_name or spec.module_name.split(".")[0]`. -/
def errorPkgName (spec : ModuleSpec) : String :=
  match spec.distribution_name with
  | some d => d
  | none => (strSplitOn spec.module_name '.').headD spec.module_name

/-- `_format_dependency_error`: one "  - pkg: ..." line for a failed
descriptor, with an install hint when an extra and a source are known.
Python truthiness makes empty strings behave like `None` in the hint
test. -/
def formatDependencyError (spec : ModuleSpec) (installed_version : Option String)
    (source : Option String) : String :=
  let pkg_name := errorPkgName spec
  let hint := match spec.extra, source with
    | some e, some src =>
      if e ≠ "" && src ≠ "" then
        " (install: pip install " ++ src ++ "[" ++ e ++ "])"
      else ""
    | _, _ => ""
  match installed_version with
  | none =>
    match spec.specifiers with
    | some sp =>
      if sp ≠ "" && sp ≠ ">0.0.0,<9999.9999.9999" then
        "  - " ++ pkg_name ++ ": not installed (requires " ++ sp ++ ")" ++ hint
      else
        "  - " ++ pkg_name ++ ": not installed" ++ hint
    | none => "  - " ++ pkg_name ++ ": not installed" ++ hint
  | some iv =>
    "  - " ++ pkg_name ++ ": installed " ++ iv ++ ", requires " ++
      optStr spec.specifiers ++ hint

/-! ## Registry and manager (odm.py lines 211-427)

Python dict assignment `d[k] = v` keeps the key's insertion position; it
is modelled by `assocSet` on association lists. -/

/-- Dict assignment on an association list: overwrite in place, append if
absent. -/
def assocSet {β : Type} : List (String × β) → String → β → List (String × β)
  | [], k, v => [(k, v)]
  | (k', v') :: rest, k, v =>
    if k' = k then (k, v) :: rest else (k', v') :: assocSet rest k v

abbrev VersionRegister := List (String × String)
abbrev UsageRegister := List (String × List String)
abbrev ModulesCache := List (String × Option Module)

/-- The `status` literal of a `ModuleReport`. -/
inductive Status where
  | satisfied | missing | version_mismatch
  deriving DecidableEq, Repr

/-- `ModuleReport` dataclass (odm.py lines 211-220). -/
structure ModuleReport where
  module_name : String
  specifier : Option String
  extra : Option String
  installed_version : Option String
  status : Status
  used_by : String
  deriving DecidableEq, Repr

/-- `OptionalDependencyManager` state.  `metasource` is `none` exactly when
`source` is; `__post_init__` would build it from installed metadata, which
is part of the environment, so the model receives it at construction. -/
structure Manager where
  source : Option String := none
  version_register : VersionRegister := []
  usage_register : UsageRegister := []
  spec_register : List (ModuleSpec × String) := []
  metasource : Option MetaSource := none
  deriving DecidableEq, Repr

/-- Errors raised at decoration time by `dependencies_decorator` /
`_validate_input`. -/
inductive DecoratorErr where
  | typeError (msg : String)
  | keyError (msg : String)
  | valueError (msg : String)
  | metaErr (e : MetaErr)
  deriving DecidableEq, Repr

/-- One entry of the `modules` dict handed to the decorator, flattened
(odm.py `_flatten_module_info`): the outer dict key is already stored in
`module_name`.  A missing dict key is `none`. -/
structure ModuleInfoRec where
  module_name : String
  from_meta : Option Bool := none
  specifiers : Option String := none
  «alias» : Option String := none
  extra : Option String := none
  distribution_name : Option String := none
  deriving DecidableEq, Repr

/-- `OptionalDependencyManager._validate_input` (odm.py lines 363-384):
default `from_meta` to false; when `specifiers` is absent and `from_meta`
is set, resolve them from the manager's MetaSource (requiring a source and
an `extra`), possibly raising. -/
def Manager.validate_input (mgr : Manager) (m : ModuleInfoRec) :
    Except DecoratorErr ModuleInfoRec :=
  let m := { m with from_meta := some (m.from_meta.getD false) }
  match m.specifiers with
  | some _ => .ok m
  | none =>
    if m.from_meta.getD false then
      match mgr.source, mgr.metasource with
      | some _, some ms =>
        match m.extra with
        | some e =>
          match ms.get_specifier m.module_name (some e) with
          | .ok sp => .ok { m with specifiers := some sp }
          | .error err => .error (.metaErr err)
        | none =>
          .error (.keyError "When 'from_meta' is True, the field 'extra' must be set")
      | _, _ =>
        .error (.valueError ("When 'from_meta' is True, a 'source' must be provided " ++
          "to the OptionalDependencyManager"))
    else .ok m

/-- `ModuleSpec(**mod)` on a validated record, including `__post_init__`. -/
def ModuleInfoRec.toModuleSpec (m : ModuleInfoRec) : ModuleSpec :=
  mkModuleSpec m.module_name (m.from_meta.getD false) m.specifiers m.alias
    m.extra m.distribution_name

/-- Validate every flattened record in order, stopping at the first raised
error — the `for mod in modules_flattend: odm._validate_input(mod)` loop. -/
def validateAll (mgr : Manager) : List ModuleInfoRec →
    Except DecoratorErr (List ModuleInfoRec)
  | [] => .ok []
  | m :: rest =>
    match mgr.validate_input m with
    | .error e => .error e
    | .ok m' =>
      match validateAll mgr rest with
      | .error e => .error e
      | .ok rest' => .ok (m' :: rest')

/-- `usage_register` update for one spec: create the list if absent, then
append the target's name. -/
def registerUsage (usage : UsageRegister) (name target : String) : UsageRegister :=
  assocSet usage name (((List.lookup name usage).getD []) ++ [target])

/-- The registration loop of `dependencies_decorator` (odm.py lines
260-265): record usage and append `(spec, target)` to the spec log. -/
def registerSpecs (targetName : String) : List ModuleSpec → Manager → Manager
  | [], mgr => mgr
  | s :: rest, mgr =>
    registerSpecs targetName rest
      { mgr with
        usage_register := registerUsage mgr.usage_register s.module_name targetName,
        spec_register := mgr.spec_register ++ [(s, targetName)] }

/-- Kind of a decoration target, for the `isclass`/`isfunction` check. -/
inductive TargetKind where
  | cls | func | other
  deriving DecidableEq, Repr

/-- `dependencies_decorator` (odm.py lines 245-277), the decoration-time
path: type-check the target, validate every record, build the
`ModuleSpec`s and register usage and spec-log entries.  No import happens:
the function neither receives nor touches `sys.modules` or the import
environment, and every constructed spec has an unset load cache. -/
def Manager.decorate (mgr : Manager) (kind : TargetKind) (targetName : String)
    (mods : List ModuleInfoRec) :
    Except DecoratorErr (Manager × List ModuleSpec) :=
  match kind with
  | .other =>
    .error (.typeError ("dependencies decorator can only be applied to " ++
      "classes or functions"))
  | _ =>
    match validateAll mgr mods with
    | .error e => .error e
    | .ok validated =>
      let module_specs := validated.map ModuleInfoRec.toModuleSpec
      .ok (registerSpecs targetName module_specs mgr, module_specs)

/-! ## Lazy loading at first use (odm.py lines 280-361)

The loop bodies of `OptionalDependencyChecker.modules` (lines 296-309) and
of the function wrapper's first call (lines 335-347) are identical:
load each spec, stash the module under its alias, record the installed
version when one was determined, and collect a formatted error line for
each failed spec.  `loadAll` is that shared loop. -/

def loadAll (env : Env) : List ModuleSpec → SysModules → VersionRegister →
    ModulesCache →
    Except String
      (List (ModuleSpec × LoadResult) × SysModules × VersionRegister × ModulesCache)
  | [], sys, vreg, cache => .ok ([], sys, vreg, cache)
  | s :: rest, sys, vreg, cache =>
    match ModuleSpec.load env sys s with
    | .error e => .error e
    | .ok (r, s', sys') =>
      let cache' := assocSet cache (s.alias.getD s.module_name) r.module
      let vreg' := match r.installed_version with
        | some v => assocSet vreg s.module_name v
        | none => vreg
      match loadAll env rest sys' vreg' cache' with
      | .error e => .error e
      | .ok (outs, sys'', vreg'', cache'') =>
        .ok ((s', r) :: outs, sys'', vreg'', cache'')

/-- Errors raised out of a first load: the propagated `ValueError` from a
relative module name, or the aggregated `ImportError`. -/
inductive CheckerErr where
  | valueError (msg : String)
  | importError (msg : String)
  deriving DecidableEq, Repr

/-- The aggregated-failure message (odm.py lines 311-315 and 349-351). -/
def combinedErrorMsg (errors : List String) : String :=
  "Missing or incompatible dependencies:\n" ++ joinWith "\n" errors

/-- First access of the lazily-populated modules view — the body shared by
`OptionalDependencyChecker.modules` and the function wrapper's first call:
run the load loop, then either return the alias -> module cache or raise
one combined `ImportError` over all failed specs. -/
def checkerModules (env : Env) (source : Option String) (specs : List ModuleSpec)
    (sys : SysModules) (vreg : VersionRegister) :
    Except CheckerErr (ModulesCache × SysModules × VersionRegister) :=
  match loadAll env specs sys vreg [] with
  | .error e => .error (.valueError e)
  | .ok (outs, sys', vreg', cache) =>
    let errors := (outs.filter (fun p => p.2.module.isNone)).map
      (fun p => formatDependencyError p.1 p.2.installed_version source)
    if errors.isEmpty then .ok (cache, sys', vreg')
    else .error (.importError (combinedErrorMsg errors))

/-! ## report() (odm.py lines 386-427) -/

/-- The loop of `report()`: force each logged spec's `load()`, record the
installed version when determined, and classify the status.  Returns the
reports, the spec log with its updated (mutated-in-place) descriptors, and
the updated `sys.modules` and version register. -/
def reportLoop (env : Env) : List (ModuleSpec × String) → SysModules →
    VersionRegister →
    Except String
      (List ModuleReport × List (ModuleSpec × String) × SysModules × VersionRegister)
  | [], sys, vreg => .ok ([], [], sys, vreg)
  | (s, used_by) :: rest, sys, vreg =>
    match ModuleSpec.load env sys s with
    | .error e => .error e
    | .ok (r, s', sys') =>
      let vreg' := match r.installed_version with
        | some v => assocSet vreg s.module_name v
        | none => vreg
      let status : Status :=
        if r.module.isSome then .satisfied
        else if r.installed_version.isNone then .missing
        else .version_mismatch
      let rep : ModuleReport :=
        ⟨s.module_name, s.specifiers, s.extra, r.installed_version, status, used_by⟩
      match reportLoop env rest sys' vreg' with
      | .error e => .error e
      | .ok (reps, regs, sys'', vreg'') =>
        .ok (rep :: reps, (s', used_by) :: regs, sys'', vreg'')

/-- `OptionalDependencyManager.report`: one `ModuleReport` per logged
`(descriptor, consumer)` pair, in log order.  `Except.error` models the
`ValueError` a relative-import descriptor's `load()` raises through it. -/
def Manager.report (env : Env) (sys : SysModules) (mgr : Manager) :
    Except String (List ModuleReport × Manager × SysModules) :=
  match reportLoop env mgr.spec_register sys mgr.version_register with
  | .error e => .error e
  | .ok (reps, regs, sys', vreg') =>
    .ok (reps, { mgr with spec_register := regs, version_register := vreg' }, sys')

/-! ## Compact-grammar specifier parser (spec section 4.1)

The repository's tests import `_parse_module_spec`, but the function's
definition is not among the provided sources; it is modelled here from the
spec. -/

/-- Modelled from the spec: the normalized `DependencyDescriptor` record
produced by the Specifier Parser (spec sections 3 and 4.1); the parser
`_parse_module_spec` itself is absent from the provided sources.  Optional
fields are `none` when the corresponding grammar part is absent. -/
structure DependencyDescriptor where
  module_name : String
  extra_or_group : Option String := none
  from_meta : Bool := false
  distribution_name : Option String := none
  version_specifiers : Option String := none
  «alias» : Option String := none
  deriving DecidableEq, Repr

/-- Split off a trailing ` as alias` clause from the whitespace-separated
words of the input. -/
def splitAlias (words : List String) : Except String (List String × Option String) :=
  if words.contains "as" then
    match words.reverse with
    | a :: w :: rest =>
      if w = "as" && a ≠ "as" && !rest.contains "as" then
        .ok (rest.reverse, some a)
      else .error "does not match the grammar"
    | _ => .error "does not match the grammar"
  else .ok (words, none)

/-- Split a character list at the first `->` separator, if any. -/
def splitArrow : List Char → Option (List Char × List Char)
  | [] => none
  | '-' :: '>' :: rest => some ([], rest)
  | c :: rest => (splitArrow rest).map (fun p => (c :: p.1, p.2))

/-- Split a character list at the first version-comparison operator
character, separating the name part from the trailing specifier
expression. -/
def splitAtOp : List Char → List Char × List Char
  | [] => ([], [])
  | c :: rest =>
    if c == '>' || c == '<' || c == '=' || c == '!' || c == '~' then
      ([], c :: rest)
    else
      let (a, b) := splitAtOp rest
      (c :: a, b)

/-- Modelled from the spec: `_parse_module_spec`, the Specifier Parser of
spec section 4.1, absent from the provided sources.  Grammar
`name[@extra_or_group][->distribution_name][specifier][ as alias]`:
`@token` sets `extra_or_group` and forces `from_meta = true`, `->token`
sets `distribution_name`, a trailing version-comparison expression sets
`version_specifiers`, ` as token` sets `alias`; whitespace around
separators is insignificant; an empty name segment or a string outside the
grammar is a parse error.  No I/O is performed. -/
def parse_module_spec (input : String) : Except String DependencyDescriptor :=
  match splitAlias (((splitOnChar ' ' input.data).filter
      (fun w => !w.isEmpty)).map String.mk) with
  | .error e => .error e
  | .ok (coreWords, aliasOpt) =>
    let core := String.join coreWords
    match splitArrow core.data with
    | none =>
      let (nameChars, specChars) := splitAtOp core.data
      match (splitOnChar '@' nameChars).map String.mk with
      | [n] =>
        if n = "" then .error "the name segment is empty"
        else
          .ok { module_name := n,
                version_specifiers :=
                  if specChars.isEmpty then none else some (String.mk specChars),
                «alias» := aliasOpt }
      | [n, e] =>
        if n = "" then .error "the name segment is empty"
        else if e = "" then .error "does not match the grammar"
        else
          .ok { module_name := n, extra_or_group := some e, from_meta := true,
                version_specifiers :=
                  if specChars.isEmpty then none else some (String.mk specChars),
                «alias» := aliasOpt }
      | _ => .error "does not match the grammar"
    | some (h, t) =>
      if (splitArrow t).isSome then .error "does not match the grammar"
      else
      let (distChars, specChars) := splitAtOp t
      let dist := String.mk distChars
      if dist = "" then .error "does not match the grammar"
      else
        match (splitOnChar '@' h).map String.mk with
        | [n] =>
          if n = "" then .error "the name segment is empty"
          else
            .ok { module_name := n, distribution_name := some dist,
                  version_specifiers :=
                    if specChars.isEmpty then none else some (String.mk specChars),
                  «alias» := aliasOpt }
        | [n, e] =>
          if n = "" then .error "the name segment is empty"
          else if e = "" then .error "does not match the grammar"
          else
            .ok { module_name := n, extra_or_group := some e, from_meta := true,
                  distribution_name := some dist,
                  version_specifiers :=
                    if specChars.isEmpty then none else some (String.mk specChars),
                  «alias» := aliasOpt }
        | _ => .error "does not match the grammar"

/-! ## Helper lemmas about load() -/

/-- A memoized descriptor's `load` returns the cached tuple and changes
nothing — the early return at odm.py lines 100-101. -/
theorem load_cache_hit (env : Env) (sys : SysModules) (s : ModuleSpec)
    (r : LoadResult) (h : s.load_cache = some r) :
    ModuleSpec.load env sys s = .ok (r, s, sys) := by
  unfold ModuleSpec.load
  rw [h]

/-- On a fresh descriptor whose module name is not relative, `load` does
not raise, and the descriptor it returns carries the returned tuple as its
memo cache. -/
theorem load_first_sets_cache (env : Env) (sys : SysModules) (s : ModuleSpec)
    (h1 : s.load_cache = none) (h2 : startsWithDot s.module_name = false) :
    ∃ r sys', ModuleSpec.load env sys s =
      .ok (r, { s with load_cache := some r }, sys') := by
  unfold ModuleSpec.load
  rw [h1, h2]
  simp only [Bool.false_eq_true, if_false]
  repeat' split
  all_goals exact ⟨_, _, rfl⟩

/-- Once the cache is set, any number of repeat calls return the cached
tuple and leave the descriptor and `sys.modules` untouched. -/
theorem loadN_cached (env : Env) (sys : SysModules) (s : ModuleSpec)
    (r : LoadResult) (h : s.load_cache = some r) :
    ∀ n, loadN env n sys s = .ok (r, s, sys) := by
  intro n
  induction n with
  | zero => exact load_cache_hit env sys s r h
  | succ n ih =>
    unfold loadN
    rw [load_cache_hit env sys s r h]
    exact ih

/-- A concrete environment for witnesses: `packaging` installed at 23.0,
nothing else installed; import specs resolvable with loaders. -/
def envW : Env :=
  ⟨fun p => if p = "packaging" then some "23.0" else none, fun _ => some ⟨true⟩⟩

/-- C1: for every `ModuleSpec` whose module name does not start with `"."`,
every one of N >= 1 calls to `load()` returns the same result tuple, and the
side effect on the shared module cache happens at most once: from the first
call on, the descriptor and `sys.modules` stay at the post-first-call state
`(s', sys')`, so repeat calls return the cached tuple verbatim and change
nothing. -/
theorem load_idempotent (env : Env) (sys : SysModules) (s : ModuleSpec)
    (h : startsWithDot s.module_name = false) :
    ∃ r s' sys', ModuleSpec.load env sys s = .ok (r, s', sys') ∧
      s'.load_cache = some r ∧
      ∀ n, loadN env n sys s = .ok (r, s', sys') := by
  cases hc : s.load_cache with
  | some r =>
    refine ⟨r, s, sys, load_cache_hit env sys s r hc, hc, ?_⟩
    exact loadN_cached env sys s r hc
  | none =>
    obtain ⟨r, sys', hload⟩ := load_first_sets_cache env sys s hc h
    refine ⟨r, { s with load_cache := some r }, sys', hload, rfl, ?_⟩
    intro n
    cases n with
    | zero => exact hload
    | succ n =>
      unfold loadN
      rw [hload]
      exact loadN_cached env sys' { s with load_cache := some r } r rfl n

/-- Witness for C1 at a concrete input: a fresh `packaging` descriptor in
`envW`. -/
theorem load_idempotent_witness :
    (startsWithDot (mkModuleSpec "packaging").module_name = false) ∧
    ∃ r s' sys', ModuleSpec.load envW [] (mkModuleSpec "packaging") = .ok (r, s', sys') ∧
      s'.load_cache = some r ∧
      ∀ n, loadN envW n [] (mkModuleSpec "packaging") = .ok (r, s', sys') :=
  ⟨by decide, load_idempotent envW [] (mkModuleSpec "packaging") (by decide)⟩

/-- C10: a descriptor whose module name starts with `"."` makes `load()`
raise `ValueError` on every call, not only the first: the rejection sits
after the cache check (so a pre-set cache would bypass it) but stores
nothing in the cache, so with an unset cache no call ever memoizes a
result tuple and each call raises again. -/
theorem load_relative_raises_every_call (env : Env) (sys : SysModules)
    (s : ModuleSpec) (h1 : startsWithDot s.module_name = true)
    (h2 : s.load_cache = none) :
    ModuleSpec.load env sys s =
      .error ("Relative imports are not supported, " ++
        "module_name must be an absolute path") ∧
    ∀ n, loadN env n sys s =
      .error ("Relative imports are not supported, " ++
        "module_name must be an absolute path") := by
  have hload : ModuleSpec.load env sys s =
      .error ("Relative imports are not supported, " ++
        "module_name must be an absolute path") := by
    unfold ModuleSpec.load
    rw [h2, h1]
    simp
  refine ⟨hload, fun n => ?_⟩
  cases n with
  | zero => exact hload
  | succ n =>
    unfold loadN
    rw [hload]

/-- Witness for C10: the descriptor `.rel`. -/
theorem load_relative_raises_every_call_witness :
    (startsWithDot (mkModuleSpec ".rel").module_name = true) ∧
    ((mkModuleSpec ".rel").load_cache = none) ∧
    (ModuleSpec.load envW [] (mkModuleSpec ".rel") =
      .error ("Relative imports are not supported, " ++
        "module_name must be an absolute path") ∧
    ∀ n, loadN envW n [] (mkModuleSpec ".rel") =
      .error ("Relative imports are not supported, " ++
        "module_name must be an absolute path")) :=
  ⟨by decide, rfl,
    load_relative_raises_every_call envW [] (mkModuleSpec ".rel") (by decide) rfl⟩

/-- An environment in which the only installed package is `pkgzero`, at
version 0.0.0. -/
def envZero : Env :=
  ⟨fun p => if p = "pkgzero" then some "0.0.0" else none, fun _ => some ⟨true⟩⟩

/-- C3 counterexample: a descriptor with no explicit specifier and
`from_meta = false` does NOT accept every installed version.  With
`pkgzero` installed at version 0.0.0, `load()` ends in a version-mismatch
failure, because the defaulted range `">0.0.0,<9999.9999.9999"` excludes
0.0.0 itself. -/
theorem default_specifier_counterexample :
    ModuleSpec.load envZero [] (mkModuleSpec "pkgzero") =
      .ok (⟨none, some "0.0.0",
            some "pkgzero version 0.0.0 does not meet requirement <9999.9999.9999,>0.0.0\n"⟩,
           { module_name := "pkgzero", specifiers := some ">0.0.0,<9999.9999.9999",
             «alias» := some "pkgzero",
             load_cache := some ⟨none, some "0.0.0",
               some "pkgzero version 0.0.0 does not meet requirement <9999.9999.9999,>0.0.0\n"⟩ },
           []) := by decide

/-- C3 (amended): a descriptor constructed with no explicit specifier and
`from_meta = false` gets the default range `">0.0.0,<9999.9999.9999"`,
and that range accepts exactly the versions strictly between 0.0.0 and
9999.9999.9999 — not every version (0.0.0 itself is rejected, producing a
version-mismatch failure, as is any version at or above 9999.9999.9999). -/
theorem default_specifier_range (name : String) (a e d : Option String)
    (v : String) (vs : List Nat) (hv : parseVersion v = some vs) :
    (mkModuleSpec name false none a e d).specifiers =
      some ">0.0.0,<9999.9999.9999" ∧
    ∀ cs, parseSpecifierSet ">0.0.0,<9999.9999.9999" = some cs →
      specSetContains cs v =
        (verCmp vs [0, 0, 0] == .gt && verCmp vs [9999, 9999, 9999] == .lt) := by
  constructor
  · rfl
  · intro cs hcs
    have hset : parseSpecifierSet ">0.0.0,<9999.9999.9999" =
        some [⟨.gt, [0, 0, 0], ">0.0.0"⟩, ⟨.lt, [9999, 9999, 9999], "<9999.9999.9999"⟩] := by
      decide
    rw [hset] at hcs
    cases hcs
    unfold specSetContains
    rw [show parseVersion v = some vs from hv]
    simp [SpecClause.eval]

/-- Witness for C3's amended theorem at version `"1.2.3"`: the defaulted
range does accept an ordinary version strictly inside the bounds. -/
theorem default_specifier_range_witness :
    (parseVersion "1.2.3" = some [1, 2, 3]) ∧
    ((mkModuleSpec "numpy" false none none none none).specifiers =
      some ">0.0.0,<9999.9999.9999" ∧
    ∀ cs, parseSpecifierSet ">0.0.0,<9999.9999.9999" = some cs →
      specSetContains cs "1.2.3" =
        (verCmp [1, 2, 3] [0, 0, 0] == .gt &&
          verCmp [1, 2, 3] [9999, 9999, 9999] == .lt)) :=
  ⟨by decide, default_specifier_range "numpy" none none none "1.2.3" [1, 2, 3] (by decide)⟩

/-- C9: the compact grammar string `"sklearn@ml->scikit-learn as sk"`
parses to the normalized descriptor with module name `sklearn`, extra
`ml`, `from_meta = true`, distribution name `scikit-learn` and alias
`sk`; and the parser accepts the other grammar shapes
`name`, `name specifier`, `name@extra[ as alias]`,
`name->distribution_name`, rejecting an empty name segment. -/
theorem parse_module_spec_grammar :
    parse_module_spec "sklearn@ml->scikit-learn as sk" =
      .ok { module_name := "sklearn", extra_or_group := some "ml", from_meta := true,
            distribution_name := some "scikit-learn", version_specifiers := none,
            «alias» := some "sk" } ∧
    parse_module_spec "numpy" = .ok { module_name := "numpy" } ∧
    parse_module_spec "numpy>=1.20,<2.0" =
      .ok { module_name := "numpy", version_specifiers := some ">=1.20,<2.0" } ∧
    parse_module_spec "numpy@ml as np" =
      .ok { module_name := "numpy", extra_or_group := some "ml", from_meta := true,
            «alias» := some "np" } ∧
    parse_module_spec "sklearn->scikit-learn" =
      .ok { module_name := "sklearn", distribution_name := some "scikit-learn" } ∧
    parse_module_spec "  numpy@ml  as  np  " =
      .ok { module_name := "numpy", extra_or_group := some "ml", from_meta := true,
            «alias» := some "np" } ∧
    parse_module_spec "" = .error "the name segment is empty" := by
  refine ⟨?_, ?_, ?_, ?_, ?_, ?_, ?_⟩ <;> decide

/-! ## Claim C4: get_specifier resolution policy -/

/-- A `MetaSource` whose requirement list holds two marker-satisfied
constraints for the same name under the same extra. -/
def msAmbiguous : MetaSource :=
  ⟨"strata",
   [⟨"foo", ">=1", some (.extraIs "ml")⟩, ⟨"foo", ">=2", some (.extraIs "ml")⟩],
   ["ml", "gl"]⟩

/-- C4 counterexample: with two marker-satisfied requirements for `foo`
under extra `ml`, `get_specifier` does not fail — it silently returns the
first constraint; and when no matching requirement's marker is satisfied
(extra `gl`), the failure message does not report the markers seen. -/
theorem get_specifier_ambiguity_counterexample :
    (msAmbiguous.requires.filter (reqMatches "foo" (some "ml"))).length = 2 ∧
    MetaSource.get_specifier msAmbiguous "foo" (some "ml") = .ok ">=1" ∧
    MetaSource.get_specifier msAmbiguous "foo" (some "gl") =
      .error (.importError "foo is not listed as a dependency of strata\n") ∧
    strContains "foo is not listed as a dependency of strata\n" "ml" = false := by
  refine ⟨?_, ?_, ?_, ?_⟩ <;> decide

/-- `findRequirement` returns the first matching requirement of the list. -/
theorem findRequirement_first (target : String) (env : Option String)
    (pre post : List Requirement) (r : Requirement)
    (hr : reqMatches target env r = true)
    (hpre : ∀ p ∈ pre, reqMatches target env p = false) :
    findRequirement target env (pre ++ r :: post) = some r := by
  induction pre with
  | nil =>
    unfold findRequirement
    simp only [List.nil_append]
    rw [hr]
    simp
  | cons p ps ih =>
    unfold findRequirement
    simp only [List.cons_append]
    rw [hpre p (List.mem_cons_self p ps)]
    simpa using ih (fun q hq => hpre q (List.mem_cons_of_mem p hq))

/-- `findRequirement` finds nothing when no requirement matches. -/
theorem findRequirement_none (target : String) (env : Option String)
    (l : List Requirement) (h : ∀ p ∈ l, reqMatches target env p = false) :
    findRequirement target env l = none := by
  induction l with
  | nil => rfl
  | cons p ps ih =>
    unfold findRequirement
    rw [h p (List.mem_cons_self p ps)]
    simpa using ih (fun q hq => h q (List.mem_cons_of_mem p hq))

/-- C4 (amended): for a valid extra, `get_specifier` resolves a target
that matches more than one marker-satisfied requirement by silently
returning the FIRST match's specifier (no ambiguity failure), and when no
matching requirement is marker-satisfied it raises an ImportError whose
message (`"<target> is not listed as a dependency of <source>"`) does not
report the markers seen. -/
theorem get_specifier_first_match_semantics :
    (∀ (ms : MetaSource) (target e : String) (pre post : List Requirement)
        (r : Requirement), e ∈ ms.extras → ms.requires = pre ++ r :: post →
        reqMatches target (some e) r = true →
        (∀ p ∈ pre, reqMatches target (some e) p = false) →
        MetaSource.get_specifier ms target (some e) = .ok r.specifier) ∧
    (∀ (ms : MetaSource) (target e : String), e ∈ ms.extras →
        (∀ p ∈ ms.requires, reqMatches target (some e) p = false) →
        MetaSource.get_specifier ms target (some e) =
          .error (.importError
            (target ++ " is not listed as a dependency of " ++ ms.source ++ "\n"))) := by
  constructor
  · intro ms target e pre post r he hsplit hr hpre
    unfold MetaSource.get_specifier
    rw [hsplit]
    simp [he, findRequirement_first target (some e) pre post r hr hpre]
  · intro ms target e he hnone
    unfold MetaSource.get_specifier
    simp [he, findRequirement_none target (some e) ms.requires hnone]

/-- Witness for C4's amended theorem: on `msAmbiguous`, resolution under
extra `ml` returns the first constraint `">=1"`. -/
theorem get_specifier_first_match_semantics_witness :
    ("ml" ∈ msAmbiguous.extras) ∧
    (msAmbiguous.requires =
      [] ++ (⟨"foo", ">=1", some (.extraIs "ml")⟩ : Requirement) ::
        [⟨"foo", ">=2", some (.extraIs "ml")⟩]) ∧
    (reqMatches "foo" (some "ml") ⟨"foo", ">=1", some (.extraIs "ml")⟩ = true) ∧
    MetaSource.get_specifier msAmbiguous "foo" (some "ml") = .ok ">=1" :=
  ⟨by decide, rfl, by decide,
    get_specifier_first_match_semantics.1 msAmbiguous "foo" "ml" []
      [⟨"foo", ">=2", some (.extraIs "ml")⟩] ⟨"foo", ">=1", some (.extraIs "ml")⟩
      (by decide) rfl (by decide) (fun p hp => absurd hp (List.not_mem_nil p))⟩

/-! ## Claim C2: report() and raised errors -/

/-- On a module name that is not relative, `load` never raises, whatever
the cache state. -/
theorem load_total (env : Env) (sys : SysModules) (s : ModuleSpec)
    (h : startsWithDot s.module_name = false) :
    ∃ t, ModuleSpec.load env sys s = .ok t := by
  cases hc : s.load_cache with
  | some r => exact ⟨_, load_cache_hit env sys s r hc⟩
  | none =>
    obtain ⟨r, sys', hl⟩ := load_first_sets_cache env sys s hc h
    exact ⟨_, hl⟩

/-- The `report()` loop never raises when no logged descriptor has a
relative module name. -/
theorem reportLoop_total (env : Env) (l : List (ModuleSpec × String)) :
    ∀ sys vreg, (∀ p ∈ l, startsWithDot p.1.module_name = false) →
    ∃ out, reportLoop env l sys vreg = .ok out := by
  induction l with
  | nil => exact fun sys vreg _ => ⟨_, rfl⟩
  | cons p rest ih =>
    intro sys vreg h
    obtain ⟨s, used⟩ := p
    obtain ⟨⟨r, s', sys'⟩, hl⟩ :=
      load_total env sys s (h (s, used) (List.mem_cons_self _ _))
    unfold reportLoop
    rw [hl]
    simp only
    obtain ⟨out, hr⟩ := ih sys'
      (match r.installed_version with
        | some v => assocSet vreg s.module_name v
        | none => vreg)
      (fun q hq => h q (List.mem_cons_of_mem _ hq))
    rw [hr]
    exact ⟨_, rfl⟩

/-- C2 counterexample: a logged descriptor whose module name is relative
is a descriptor failure (the spec's `relative-import-rejected` kind) that
`report()` does NOT encode as a status value — the `ValueError` raised by
its `load()` propagates out of `report()`. -/
theorem report_raises_counterexample :
    Manager.report envW [] { spec_register := [(mkModuleSpec ".rel", "Consumer")] } =
      .error ("Relative imports are not supported, " ++
        "module_name must be an absolute path") := by decide

/-- C2 (amended): for every manager whose logged descriptors all have
non-relative module names, `report()` never raises: it returns a report
list in which every descriptor's outcome is encoded as one of the status
values `satisfied` / `missing` / `version_mismatch`.  (A logged relative
module name is the one exception: its `ValueError` propagates.) -/
theorem report_never_raises (env : Env) (sys : SysModules) (mgr : Manager)
    (h : ∀ p ∈ mgr.spec_register, startsWithDot p.1.module_name = false) :
    ∃ reps mgr' sys', Manager.report env sys mgr = .ok (reps, mgr', sys') ∧
      ∀ rep ∈ reps, rep.status = .satisfied ∨ rep.status = .missing ∨
        rep.status = .version_mismatch := by
  unfold Manager.report
  obtain ⟨⟨reps, regs, sys', vreg'⟩, hr⟩ :=
    reportLoop_total env mgr.spec_register sys mgr.version_register h
  rw [hr]
  refine ⟨reps, _, sys', rfl, fun rep _ => ?_⟩
  cases hs : rep.status with
  | satisfied => exact Or.inl rfl
  | missing => exact Or.inr (Or.inl rfl)
  | version_mismatch => exact Or.inr (Or.inr rfl)

/-- Witness for C2's amended theorem: a manager with one satisfiable and
one missing logged descriptor; `report` returns statuses as data. -/
theorem report_never_raises_witness :
    (∀ p ∈ ({ spec_register := [(mkModuleSpec "packaging", "C"),
        (mkModuleSpec "nope", "D")] } : Manager).spec_register,
      startsWithDot p.1.module_name = false) ∧
    ∃ reps mgr' sys',
      Manager.report envW [] { spec_register := [(mkModuleSpec "packaging", "C"),
        (mkModuleSpec "nope", "D")] } = .ok (reps, mgr', sys') ∧
      ∀ rep ∈ reps, rep.status = .satisfied ∨ rep.status = .missing ∨
        rep.status = .version_mismatch :=
  ⟨by decide,
    report_never_raises envW []
      { spec_register := [(mkModuleSpec "packaging", "C"), (mkModuleSpec "nope", "D")] }
      (by decide)⟩

/-! ## Claim C8: one report per logged pair, in order -/

/-- Shape of a successful `report()` loop: one report per input pair, and
the i-th report carries the i-th logged descriptor's module name and
consumer. -/
theorem reportLoop_shape (env : Env) (l : List (ModuleSpec × String)) :
    ∀ sys vreg reps regs sys' vreg',
      reportLoop env l sys vreg = .ok (reps, regs, sys', vreg') →
      reps.length = l.length ∧
      ∀ i (hi : i < reps.length) (hj : i < l.length),
        (reps.get ⟨i, hi⟩).module_name = (l.get ⟨i, hj⟩).1.module_name ∧
        (reps.get ⟨i, hi⟩).used_by = (l.get ⟨i, hj⟩).2 := by
  induction l with
  | nil =>
    intro sys vreg reps regs sys' vreg' h
    unfold reportLoop at h
    injection h with h
    injection h with h1 h
    subst h1
    exact ⟨rfl, fun i hi hj => absurd hj (Nat.not_lt_zero i)⟩
  | cons p rest ih =>
    intro sys vreg reps regs sys' vreg' h
    obtain ⟨s, used⟩ := p
    unfold reportLoop at h
    split at h
    · exact absurd h (by simp)
    · rename_i r s2 sys2 heq
      simp only at h
      split at h
      · exact absurd h (by simp)
      · rename_i reps2 regs2 sys3 vreg3 hrest
        injection h with h
        injection h with h1 h
        injection h with h2 h
        subst h1
        obtain ⟨ihlen, ihget⟩ := ih sys2 _ reps2 regs2 sys3 vreg3 hrest
        refine ⟨by simpa using ihlen, fun i hi hj => ?_⟩
        cases i with
        | zero => exact ⟨rfl, rfl⟩
        | succ i =>
          exact ihget i (Nat.lt_of_succ_lt_succ (by simpa using hi))
            (Nat.lt_of_succ_lt_succ (by simpa using hj))

/-- C8: a successful `report()` returns exactly one `ModuleReport` per
logged `(descriptor, consumer)` pair, in the order the pairs were logged:
the lengths agree and the i-th report carries the i-th pair's module name
and consumer — also when the same module name recurs across entries. -/
theorem report_one_per_entry (env : Env) (sys : SysModules) (mgr : Manager)
    (reps : List ModuleReport) (mgr' : Manager) (sys' : SysModules)
    (h : Manager.report env sys mgr = .ok (reps, mgr', sys')) :
    reps.length = mgr.spec_register.length ∧
    ∀ i (hi : i < reps.length) (hj : i < mgr.spec_register.length),
      (reps.get ⟨i, hi⟩).module_name = (mgr.spec_register.get ⟨i, hj⟩).1.module_name ∧
      (reps.get ⟨i, hi⟩).used_by = (mgr.spec_register.get ⟨i, hj⟩).2 := by
  unfold Manager.report at h
  split at h
  · exact absurd h (by simp)
  · rename_i reps2 regs2 sys2 vreg2 hloop
    injection h with h
    injection h with h1 h
    subst h1
    exact reportLoop_shape env mgr.spec_register sys mgr.version_register
      reps2 regs2 sys2 vreg2 hloop

/-- A manager logging the same module name twice, under two consumers. -/
def mgrTwice : Manager :=
  { spec_register := [(mkModuleSpec "packaging", "C"), (mkModuleSpec "packaging", "D")] }

/-- The descriptor state of a successfully loaded `packaging` spec. -/
def packagingLoaded : ModuleSpec :=
  { module_name := "packaging", specifiers := some ">0.0.0,<9999.9999.9999",
    «alias» := some "packaging",
    load_cache := some ⟨some "packaging", some "23.0", none⟩ }

/-- One `satisfied` report line for `packaging`, as used by a consumer. -/
def packagingReport (c : String) : ModuleReport :=
  { module_name := "packaging", specifier := some ">0.0.0,<9999.9999.9999",
    extra := none, installed_version := some "23.0", status := .satisfied,
    used_by := c }

/-- Witness for C8 on `mgrTwice`: the report has one entry per logged
pair, in log order, though the module name recurs. -/
theorem report_one_per_entry_witness :
    (Manager.report envW [] mgrTwice =
      .ok ([packagingReport "C", packagingReport "D"],
           { source := none, version_register := [("packaging", "23.0")],
             usage_register := [],
             spec_register := [(packagingLoaded, "C"), (packagingLoaded, "D")],
             metasource := none },
           [("packaging", "packaging")])) ∧
    ([packagingReport "C", packagingReport "D"].length =
      mgrTwice.spec_register.length ∧
    ∀ i (hi : i < [packagingReport "C", packagingReport "D"].length)
        (hj : i < mgrTwice.spec_register.length),
      ([packagingReport "C", packagingReport "D"].get ⟨i, hi⟩).module_name =
        (mgrTwice.spec_register.get ⟨i, hj⟩).1.module_name ∧
      ([packagingReport "C", packagingReport "D"].get ⟨i, hi⟩).used_by =
        (mgrTwice.spec_register.get ⟨i, hj⟩).2) :=
  ⟨by decide,
    report_one_per_entry envW [] mgrTwice [packagingReport "C", packagingReport "D"]
      { source := none, version_register := [("packaging", "23.0")],
        usage_register := [],
        spec_register := [(packagingLoaded, "C"), (packagingLoaded, "D")],
        metasource := none }
      [("packaging", "packaging")] (by decide)⟩

/-! ## Claim C7: decoration performs no import and no version check -/

/-- `List.lookup` after a dict assignment. -/
theorem lookup_assocSet {β : Type} (l : List (String × β)) (k m : String) (v : β) :
    List.lookup m (assocSet l k v) = if m = k then some v else List.lookup m l := by
  induction l with
  | nil =>
    by_cases hm : m = k
    · simp [assocSet, List.lookup, hm]
    · simp [assocSet, List.lookup, hm, beq_false_of_ne hm]
  | cons p rest ih =>
    obtain ⟨k', v'⟩ := p
    unfold assocSet
    by_cases hk : k' = k
    · subst hk
      by_cases hm : m = k'
      · subst hm
        simp [List.lookup]
      · simp [List.lookup, hm, beq_false_of_ne hm]
    · simp only [hk, if_false]
      by_cases hm : m = k'
      · subst hm
        have : m ≠ k := fun hmk => hk (hmk.symm ▸ rfl)
        simp [List.lookup, this]
      · simp [List.lookup, beq_false_of_ne hm, ih]

/-- The registration loop leaves version register, source and metasource
unchanged, and appends one `(spec, target)` entry per spec to the log. -/
theorem registerSpecs_frame (t : String) (specs : List ModuleSpec) :
    ∀ mgr : Manager,
      (registerSpecs t specs mgr).version_register = mgr.version_register ∧
      (registerSpecs t specs mgr).source = mgr.source ∧
      (registerSpecs t specs mgr).metasource = mgr.metasource ∧
      (registerSpecs t specs mgr).spec_register =
        mgr.spec_register ++ specs.map (fun s => (s, t)) := by
  induction specs with
  | nil => exact fun mgr => ⟨rfl, rfl, rfl, by simp [registerSpecs]⟩
  | cons s rest ih =>
    intro mgr
    unfold registerSpecs
    obtain ⟨h1, h2, h3, h4⟩ := ih
      { mgr with
        usage_register := registerUsage mgr.usage_register s.module_name t,
        spec_register := mgr.spec_register ++ [(s, t)] }
    exact ⟨h1, h2, h3, by rw [h4]; simp⟩

/-- The registration loop extends each module name's usage list with one
occurrence of the target per spec bearing that name, in order. -/
theorem registerSpecs_usage (t : String) (specs : List ModuleSpec) :
    ∀ (mgr : Manager) (m : String),
      (List.lookup m (registerSpecs t specs mgr).usage_register).getD [] =
        (List.lookup m mgr.usage_register).getD [] ++
          ((specs.filter (fun s => s.module_name == m)).map (fun _ => t)) := by
  induction specs with
  | nil => intro mgr m; simp [registerSpecs]
  | cons s rest ih =>
    intro mgr m
    unfold registerSpecs
    rw [ih]
    by_cases hm : m = s.module_name
    · subst hm
      simp [registerUsage, lookup_assocSet, List.filter]
    · have hne : (s.module_name == m) = false := by
        exact beq_false_of_ne (fun hc => hm hc.symm)
      simp [registerUsage, lookup_assocSet, hm, List.filter, hne]

/-- C7: a successful decoration performs no import and no installed-version
check: the version register, source and metasource are unchanged, every
constructed descriptor's load cache is still unset, and only the spec log
and the usage register are extended (by exactly the new target's entries).
The decoration path neither receives nor touches the shared module cache
or the import environment — `Manager.decorate` has no `Env`/`SysModules`
argument at all. -/
theorem decorate_no_import (mgr : Manager) (kind : TargetKind) (t : String)
    (mods : List ModuleInfoRec) (mgr' : Manager) (specs : List ModuleSpec)
    (h : Manager.decorate mgr kind t mods = .ok (mgr', specs)) :
    mgr'.version_register = mgr.version_register ∧
    mgr'.source = mgr.source ∧
    mgr'.metasource = mgr.metasource ∧
    (∀ s ∈ specs, s.load_cache = none) ∧
    mgr'.spec_register = mgr.spec_register ++ specs.map (fun s => (s, t)) ∧
    (∀ m, (List.lookup m mgr'.usage_register).getD [] =
      (List.lookup m mgr.usage_register).getD [] ++
        ((specs.filter (fun s => s.module_name == m)).map (fun _ => t))) := by
  have hcache : ∀ (v : List ModuleInfoRec) (s : ModuleSpec),
      s ∈ v.map ModuleInfoRec.toModuleSpec → s.load_cache = none := by
    intro v s hs
    obtain ⟨m0, _, rfl⟩ := List.mem_map.mp hs
    rfl
  cases kind with
  | other => exact absurd h (by simp [Manager.decorate])
  | cls =>
    unfold Manager.decorate at h
    split at h
    · exact absurd h (by simp)
    · split at h
      · exact absurd h (by simp)
      · rename_i validated hv
        injection h with h
        injection h with h1 h2
        subst h1 h2
        obtain ⟨f1, f2, f3, f4⟩ :=
          registerSpecs_frame t (validated.map ModuleInfoRec.toModuleSpec) mgr
        exact ⟨f1, f2, f3, hcache validated, f4,
          fun m => registerSpecs_usage t (validated.map ModuleInfoRec.toModuleSpec) mgr m⟩
  | func =>
    unfold Manager.decorate at h
    split at h
    · exact absurd h (by simp)
    · split at h
      · exact absurd h (by simp)
      · rename_i validated hv
        injection h with h
        injection h with h1 h2
        subst h1 h2
        obtain ⟨f1, f2, f3, f4⟩ :=
          registerSpecs_frame t (validated.map ModuleInfoRec.toModuleSpec) mgr
        exact ⟨f1, f2, f3, hcache validated, f4,
          fun m => registerSpecs_usage t (validated.map ModuleInfoRec.toModuleSpec) mgr m⟩

/-- The one descriptor of the C7 witness decoration. -/
def numpySpec : ModuleSpec := mkModuleSpec "numpy"

/-- The manager state after the C7 witness decoration. -/
def mgrDecorated : Manager :=
  { usage_register := [("numpy", ["Target"])],
    spec_register := [(numpySpec, "Target")] }

/-- Witness for C7: decorating a class `Target` with one `numpy` record on
a fresh manager extends only the usage register and the spec log. -/
theorem decorate_no_import_witness :
    (Manager.decorate {} .cls "Target" [{ module_name := "numpy" }] =
      .ok (mgrDecorated, [numpySpec])) ∧
    (mgrDecorated.version_register = ({} : Manager).version_register ∧
    mgrDecorated.source = ({} : Manager).source ∧
    mgrDecorated.metasource = ({} : Manager).metasource ∧
    (∀ s ∈ [numpySpec], s.load_cache = none) ∧
    mgrDecorated.spec_register =
      ({} : Manager).spec_register ++ [numpySpec].map (fun s => (s, "Target")) ∧
    (∀ m, (List.lookup m mgrDecorated.usage_register).getD [] =
      (List.lookup m ({} : Manager).usage_register).getD [] ++
        (([numpySpec].filter (fun s => s.module_name == m)).map
          (fun _ => "Target")))) :=
  ⟨by decide,
    decorate_no_import {} .cls "Target" [{ module_name := "numpy" }]
      mgrDecorated [numpySpec] (by decide)⟩

/-! ## Claim C6: version-register write invariant -/

/-- A successful `load` never changes the descriptor's module name. -/
theorem load_ok_module_name (env : Env) (sys : SysModules) (s : ModuleSpec)
    (r : LoadResult) (s' : ModuleSpec) (sys' : SysModules)
    (h : ModuleSpec.load env sys s = .ok (r, s', sys')) :
    s'.module_name = s.module_name := by
  unfold ModuleSpec.load at h
  simp only at h
  repeat' split at h
  all_goals cases h
  all_goals rfl

/-- In the shared first-load loop, the version register changes at a key
only when some processed descriptor bears that module name and its load
determined an installed version. -/
theorem loadAll_version_writes (env : Env) (specs : List ModuleSpec) :
    ∀ sys vreg cache outs sys' vreg' cache',
      loadAll env specs sys vreg cache = .ok (outs, sys', vreg', cache') →
      ∀ m, List.lookup m vreg' ≠ List.lookup m vreg →
        ∃ p ∈ outs, p.1.module_name = m ∧ p.2.installed_version ≠ none := by
  induction specs with
  | nil =>
    intro sys vreg cache outs sys' vreg' cache' h m hm
    unfold loadAll at h
    simp only [Except.ok.injEq, Prod.mk.injEq] at h
    obtain ⟨-, -, h3, -⟩ := h
    exact absurd (by rw [h3]) hm
  | cons s rest ih =>
    intro sys vreg cache outs sys' vreg' cache' h m hm
    unfold loadAll at h
    split at h
    · exact absurd h (by simp)
    · rename_i r s2 sys2 hload
      simp only at h
      cases hiv : r.installed_version with
      | none =>
        rw [hiv] at h
        simp only at h
        split at h
        · exact absurd h (by simp)
        · rename_i outs2 sys3 vreg3 cache3 hrest
          simp only [Except.ok.injEq, Prod.mk.injEq] at h
          obtain ⟨h1, h2, h3, h4⟩ := h
          subst h2 h3 h4
          obtain ⟨p, hp, hpm, hpv⟩ :=
            ih sys2 vreg _ outs2 _ _ _ hrest m hm
          exact ⟨p, by rw [← h1]; exact List.mem_cons_of_mem _ hp, hpm, hpv⟩
      | some v =>
        rw [hiv] at h
        simp only at h
        split at h
        · exact absurd h (by simp)
        · rename_i outs2 sys3 vreg3 cache3 hrest
          simp only [Except.ok.injEq, Prod.mk.injEq] at h
          obtain ⟨h1, h2, h3, h4⟩ := h
          subst h2 h3 h4
          by_cases hchange :
              List.lookup m (assocSet vreg s.module_name v) = List.lookup m vreg
          · obtain ⟨p, hp, hpm, hpv⟩ :=
              ih sys2 _ _ outs2 _ _ _ hrest m (by rw [hchange]; exact hm)
            exact ⟨p, by rw [← h1]; exact List.mem_cons_of_mem _ hp, hpm, hpv⟩
          · have hmk : m = s.module_name := by
              by_contra hne
              rw [lookup_assocSet vreg s.module_name m v] at hchange
              simp [hne] at hchange
            refine ⟨(s2, r), by rw [← h1]; exact List.mem_cons_self _ _, ?_, ?_⟩
            · rw [load_ok_module_name env sys s r s2 sys2 hload, hmk]
            · rw [hiv]
              simp

/-- In the `report()` loop, the version register changes at a key only
when some emitted report bears that module name with a determined
installed version. -/
theorem reportLoop_version_writes (env : Env) (l : List (ModuleSpec × String)) :
    ∀ sys vreg reps regs sys' vreg',
      reportLoop env l sys vreg = .ok (reps, regs, sys', vreg') →
      ∀ m, List.lookup m vreg' ≠ List.lookup m vreg →
        ∃ rep ∈ reps, rep.module_name = m ∧ rep.installed_version ≠ none := by
  induction l with
  | nil =>
    intro sys vreg reps regs sys' vreg' h m hm
    unfold reportLoop at h
    simp only [Except.ok.injEq, Prod.mk.injEq] at h
    obtain ⟨-, -, -, h4⟩ := h
    exact absurd (by rw [h4]) hm
  | cons p rest ih =>
    intro sys vreg reps regs sys' vreg' h m hm
    obtain ⟨s, used⟩ := p
    unfold reportLoop at h
    split at h
    · exact absurd h (by simp)
    · rename_i r s2 sys2 hload
      simp only at h
      cases hiv : r.installed_version with
      | none =>
        rw [hiv] at h
        simp only at h
        split at h
        · exact absurd h (by simp)
        · rename_i reps2 regs2 sys3 vreg3 hrest
          simp only [Except.ok.injEq, Prod.mk.injEq] at h
          obtain ⟨h1, h2, h3, h4⟩ := h
          subst h2 h3 h4
          obtain ⟨rep, hp, hpm, hpv⟩ := ih sys2 vreg reps2 _ _ _ hrest m hm
          exact ⟨rep, by rw [← h1]; exact List.mem_cons_of_mem _ hp, hpm, hpv⟩
      | some v =>
        rw [hiv] at h
        simp only at h
        split at h
        · exact absurd h (by simp)
        · rename_i reps2 regs2 sys3 vreg3 hrest
          simp only [Except.ok.injEq, Prod.mk.injEq] at h
          obtain ⟨h1, h2, h3, h4⟩ := h
          subst h2 h3 h4
          by_cases hchange :
              List.lookup m (assocSet vreg s.module_name v) = List.lookup m vreg
          · obtain ⟨rep, hp, hpm, hpv⟩ :=
              ih sys2 _ reps2 _ _ _ hrest m (by rw [hchange]; exact hm)
            exact ⟨rep, by rw [← h1]; exact List.mem_cons_of_mem _ hp, hpm, hpv⟩
          · have hmk : m = s.module_name := by
              by_contra hne
              rw [lookup_assocSet vreg s.module_name m v] at hchange
              simp [hne] at hchange
            refine ⟨⟨s.module_name, s.specifiers, s.extra, r.installed_version, _, used⟩,
              by rw [← h1, hiv]; exact List.mem_cons_self _ _, hmk.symm, ?_⟩
            rw [hiv]
            simp

/-- C6: an entry of the manager's version register is written only by a
load attempt that determined an installed version (success or
version-mismatch), never by a not-installed failure; this holds on both
register write paths: the shared first-load loop of the class checker and
the function wrapper (`loadAll`), and `report()`. -/
theorem version_register_write_invariant (env : Env) :
    (∀ specs sys vreg cache outs sys' vreg' cache',
      loadAll env specs sys vreg cache = .ok (outs, sys', vreg', cache') →
      ∀ m, List.lookup m vreg' ≠ List.lookup m vreg →
        ∃ p ∈ outs, p.1.module_name = m ∧ p.2.installed_version ≠ none) ∧
    (∀ mgr sys reps mgr' sys',
      Manager.report env sys mgr = .ok (reps, mgr', sys') →
      ∀ m, List.lookup m mgr'.version_register ≠ List.lookup m mgr.version_register →
        ∃ rep ∈ reps, rep.module_name = m ∧ rep.installed_version ≠ none) := by
  constructor
  · exact fun specs => loadAll_version_writes env specs
  · intro mgr sys reps mgr' sys' h m hm
    unfold Manager.report at h
    split at h
    · exact absurd h (by simp)
    · rename_i reps2 regs2 sys2 vreg2 hloop
      simp only [Except.ok.injEq, Prod.mk.injEq] at h
      obtain ⟨h1, h2, h3⟩ := h
      subst h1 h2 h3
      exact reportLoop_version_writes env mgr.spec_register sys mgr.version_register
        _ _ _ _ hloop m hm

/-- The mismatch result of loading `pkgzero` at installed version 0.0.0. -/
def pkgzeroResult : LoadResult :=
  ⟨none, some "0.0.0",
   some "pkgzero version 0.0.0 does not meet requirement <9999.9999.9999,>0.0.0\n"⟩

/-- The `pkgzero` descriptor after its mismatching load. -/
def pkgzeroLoaded : ModuleSpec :=
  { module_name := "pkgzero", specifiers := some ">0.0.0,<9999.9999.9999",
    «alias» := some "pkgzero", load_cache := some pkgzeroResult }

/-- Witness for C6: in `envZero` the `pkgzero` load ends in a
version-mismatch, and the version-register entry written for it comes with
a determined installed version. -/
theorem version_register_write_invariant_witness :
    (loadAll envZero [mkModuleSpec "pkgzero"] [] [] [] =
      .ok ([(pkgzeroLoaded, pkgzeroResult)], [], [("pkgzero", "0.0.0")],
           [("pkgzero", none)])) ∧
    (List.lookup "pkgzero" [("pkgzero", "0.0.0")] ≠
      List.lookup "pkgzero" ([] : VersionRegister)) ∧
    ∃ p ∈ [(pkgzeroLoaded, pkgzeroResult)],
      p.1.module_name = "pkgzero" ∧ p.2.installed_version ≠ none :=
  ⟨by rfl, by decide,
    (version_register_write_invariant envZero).1 [mkModuleSpec "pkgzero"] [] [] []
      [(pkgzeroLoaded, pkgzeroResult)] [] [("pkgzero", "0.0.0")] [("pkgzero", none)]
      (by rfl) "pkgzero" (by decide)⟩

/-! ## Claim C5: the aggregated error mentions every failure -/

theorem leadsWith_refl (l : List Char) : leadsWith l l = true := by
  induction l with
  | nil => rfl
  | cons a as2 ih => simp [leadsWith, ih]

theorem leadsWith_append (pat : List Char) :
    ∀ l y, leadsWith pat l = true → leadsWith pat (l ++ y) = true := by
  induction pat with
  | nil => intro l y _; rfl
  | cons a as2 ih =>
    intro l y h
    cases l with
    | nil => exact absurd h (by simp [leadsWith])
    | cons b bs =>
      simp [leadsWith] at h ⊢
      exact ⟨h.1, ih bs y h.2⟩

theorem occursIn_of_leads (pat l : List Char) (h : leadsWith pat l = true) :
    occursIn pat l = true := by
  cases l with
  | nil => exact h
  | cons c rest => simp [occursIn, h]

theorem occursIn_append_right (pat : List Char) :
    ∀ x l, occursIn pat l = true → occursIn pat (x ++ l) = true := by
  intro x
  induction x with
  | nil => exact fun l h => h
  | cons c cs ih =>
    intro l h
    show (leadsWith pat (c :: (cs ++ l)) || occursIn pat (cs ++ l)) = true
    rw [ih l h]
    simp

theorem occursIn_nil_pat : ∀ l : List Char, occursIn [] l = true := by
  intro l
  cases l with
  | nil => rfl
  | cons c rest => simp [occursIn, leadsWith]

theorem occursIn_append_left (pat : List Char) :
    ∀ l y, occursIn pat l = true → occursIn pat (l ++ y) = true := by
  intro l
  induction l with
  | nil =>
    intro y h
    cases pat with
    | nil => exact occursIn_nil_pat y
    | cons a as2 => exact absurd h (by simp [occursIn, leadsWith])
  | cons c rest ih =>
    intro y h
    simp only [occursIn, Bool.or_eq_true] at h
    simp only [List.cons_append, occursIn, Bool.or_eq_true]
    cases h with
    | inl hl => exact Or.inl (leadsWith_append pat (c :: rest) y hl)
    | inr hr => exact Or.inr (ih y hr)

/-- `pat` occurs in anything of the shape `x ++ (pat ++ y)`. -/
theorem occursIn_sandwich (pat x y : List Char) :
    occursIn pat (x ++ (pat ++ y)) = true :=
  occursIn_append_right pat x _
    (occursIn_of_leads pat _ (leadsWith_append pat pat y (leadsWith_refl pat)))

/-- Every member of a joined list sits contiguously inside the join. -/
theorem joinWith_mem_data (sep : String) :
    ∀ (l : List String) (x : String), x ∈ l →
      ∃ pre post, (joinWith sep l).data = pre ++ (x.data ++ post) := by
  intro l
  induction l with
  | nil => intro x h; exact absurd h (List.not_mem_nil x)
  | cons a rest ih =>
    intro x h
    cases rest with
    | nil =>
      rw [List.mem_singleton] at h
      subst h
      exact ⟨[], [], by simp [joinWith]⟩
    | cons b bs =>
      rcases List.mem_cons.mp h with h1 | h2
      · subst h1
        refine ⟨[], (sep ++ joinWith sep (b :: bs)).data, ?_⟩
        simp [joinWith, String.data_append, List.append_assoc]
      · obtain ⟨pre, post, hdata⟩ := ih x h2
        refine ⟨(a ++ sep).data ++ pre, post, ?_⟩
        simp [joinWith, String.data_append, hdata, List.append_assoc]

/-- Each error line of `_format_dependency_error` names the failing
descriptor's package name. -/
theorem formatDependencyError_mentions_pkg (spec : ModuleSpec)
    (iv : Option String) (src : Option String) :
    strContains (formatDependencyError spec iv src) (errorPkgName spec) = true := by
  unfold formatDependencyError strContains
  repeat' split
  all_goals
    simp only [String.data_append, List.append_assoc]
    exact occursIn_sandwich _ _ _

/-- A line of the aggregated message that contains `pat` makes the whole
message contain `pat`. -/
theorem combined_mentions_line (errors : List String) (line : String)
    (h : line ∈ errors) (pat : String)
    (hline : strContains line pat = true) :
    strContains (combinedErrorMsg errors) pat = true := by
  obtain ⟨pre, post, hdata⟩ := joinWith_mem_data "\n" errors line h
  unfold combinedErrorMsg strContains
  rw [String.data_append, hdata]
  rw [show ("Missing or incompatible dependencies:\n").data ++ (pre ++ (line.data ++ post)) =
    (("Missing or incompatible dependencies:\n").data ++ pre) ++ (line.data ++ post) by
      simp [List.append_assoc]]
  exact occursIn_append_right _ _ _ (occursIn_append_left _ _ _ hline)

/-- The message of the one aggregated `ImportError` is the joined error
lines of the failing descriptors. -/
theorem checker_importError_msg (env : Env) (source : Option String)
    (specs : List ModuleSpec) (sys : SysModules) (vreg : VersionRegister)
    (outs : List (ModuleSpec × LoadResult)) (sys' : SysModules)
    (vreg' : VersionRegister) (cache : ModulesCache) (msg : String)
    (hout : loadAll env specs sys vreg [] = .ok (outs, sys', vreg', cache))
    (hmsg : checkerModules env source specs sys vreg = .error (.importError msg)) :
    msg = combinedErrorMsg ((outs.filter (fun p => p.2.module.isNone)).map
      (fun p => formatDependencyError p.1 p.2.installed_version source)) := by
  unfold checkerModules at hmsg
  rw [hout] at hmsg
  simp only at hmsg
  split at hmsg
  · exact absurd hmsg (by simp)
  · injection hmsg with hmsg
    injection hmsg with hmsg
    exact hmsg.symm

/-- C5 counterexample: two descriptors fail together; exactly one combined
ImportError is raised, but its message does not mention the first failing
descriptor's module name `sklearn` — only its distribution name
`scikit-learn`. -/
theorem aggregated_error_counterexample :
    checkerModules envW none
      [mkModuleSpec "sklearn" false none none none (some "scikit-learn"),
       mkModuleSpec "nope"] [] [] =
      .error (.importError ("Missing or incompatible dependencies:\n" ++
        "  - scikit-learn: not installed\n  - nope: not installed")) ∧
    strContains ("Missing or incompatible dependencies:\n" ++
      "  - scikit-learn: not installed\n  - nope: not installed") "sklearn" = false ∧
    strContains ("Missing or incompatible dependencies:\n" ++
      "  - scikit-learn: not installed\n  - nope: not installed") "nope" = true := by
  refine ⟨by rfl, by decide, by decide⟩

/-- C5 (amended): when the first load of a decorated target's descriptors
fails, exactly one combined `ImportError` is raised, and its message
mentions every failing descriptor's package name — `distribution_name`
when given, else the first dot-segment of `module_name` — not just the
first failure's. -/
theorem aggregated_error_mentions_all (env : Env) (source : Option String)
    (specs : List ModuleSpec) (sys : SysModules) (vreg : VersionRegister)
    (outs : List (ModuleSpec × LoadResult)) (sys' : SysModules)
    (vreg' : VersionRegister) (cache : ModulesCache) (msg : String)
    (hout : loadAll env specs sys vreg [] = .ok (outs, sys', vreg', cache))
    (hmsg : checkerModules env source specs sys vreg = .error (.importError msg)) :
    ∀ p ∈ outs, p.2.module = none →
      strContains msg (errorPkgName p.1) = true := by
  intro p hp hfail
  rw [checker_importError_msg env source specs sys vreg outs sys' vreg' cache msg
    hout hmsg]
  refine combined_mentions_line _ _ ?_ _
    (formatDependencyError_mentions_pkg p.1 p.2.installed_version source)
  exact List.mem_map.mpr ⟨p, List.mem_filter.mpr ⟨hp, by simp [hfail]⟩, rfl⟩

/-- The not-installed result of loading `nope` in `envW`. -/
def nopeResult : LoadResult := ⟨none, none, some "nope is not installed\n"⟩

/-- The `nope` descriptor after its failed load. -/
def nopeLoaded : ModuleSpec :=
  { module_name := "nope", specifiers := some ">0.0.0,<9999.9999.9999",
    «alias» := some "nope", load_cache := some nopeResult }

/-- Witness for C5's amended theorem: the aggregated message of a failing
first load names the failing descriptor's package name. -/
theorem aggregated_error_mentions_all_witness :
    (loadAll envW [mkModuleSpec "nope"] [] [] [] =
      .ok ([(nopeLoaded, nopeResult)], [], [], [("nope", none)])) ∧
    (checkerModules envW none [mkModuleSpec "nope"] [] [] =
      .error (.importError "Missing or incompatible dependencies:\n  - nope: not installed")) ∧
    ∀ p ∈ [(nopeLoaded, nopeResult)], p.2.module = none →
      strContains "Missing or incompatible dependencies:\n  - nope: not installed"
        (errorPkgName p.1) = true :=
  ⟨by rfl, by rfl,
    aggregated_error_mentions_all envW none [mkModuleSpec "nope"] [] []
      [(nopeLoaded, nopeResult)] [] [] [("nope", none)]
      "Missing or incompatible dependencies:\n  - nope: not installed"
      (by rfl) (by rfl)⟩

end Pyodm
